import Mathlib

/-!
Verification of the food-image matching core of
`az-image-description-ai-matching` (files `app/core/image_analyzer.py` and
`app/utils/file_utils.py`).

The Python code is shallowly embedded: strings are `String`/`List Char`
(one entry per code point, matching Python `str` indexing), Python floats
are modelled as exact rationals `ℚ`, and the regular-expression searches of
the source are unfolded into explicit scanning functions whose behaviour
(leftmost match, greediness, backtracking) is derived from the concrete
patterns used by the code.  Character classes are taken with their ASCII
semantics.
-/

namespace AzImageMatching

/- The Batteries library marks the arithmetic of `Rat` irreducible, which
blocks kernel evaluation of concrete rational arithmetic in witnesses;
restore the default reducibility so that `decide` can evaluate the
embedded pipeline on concrete inputs. -/
set_option allowUnsafeReducibility true in
attribute [semireducible] Rat.add Rat.mul Rat.inv Rat.sub Rat.ofScientific

/-! ### Character classes (ASCII semantics of the regex classes in the code) -/

/-- ASCII whitespace, the characters matched by the regex class `\s`. -/
def isSpaceChar (c : Char) : Bool :=
  c = ' ' || c = '\t' || c = '\n' || c = '\r' || c = '\x0b' || c = '\x0c'

/-- Characters matched by the regex class `\w` under ASCII semantics:
letters, digits and underscore. -/
def isWordChar (c : Char) : Bool := c.isAlphanum || c = '_'

/-- Characters matched by the class `[\d\.]` in the confidence regex. -/
def isDigitDot (c : Char) : Bool := c.isDigit || c = '.'

/-- Characters matched by `[\s:]` in the confidence regex. -/
def isSpaceColon (c : Char) : Bool := isSpaceChar c || c = ':'

/-- Characters matched by `[\s\-]` in the unmatched-marker regex. -/
def isSpaceHyphen (c : Char) : Bool := isSpaceChar c || c = '-'

/-! ### Basic string helpers -/

/-- Python's substring test `needle in hay` on code-point lists. -/
def hasSub (needle : List Char) : List Char → Bool
  | [] => needle.isEmpty
  | c :: cs => needle.isPrefixOf (c :: cs) || hasSub needle cs

/-- Python's `str.strip()`: drop whitespace from both ends. -/
def stripChars (l : List Char) : List Char :=
  ((l.dropWhile isSpaceChar).reverse.dropWhile isSpaceChar).reverse

/-- Python's `str.lower()` (ASCII model). -/
def pyLower (s : String) : String := String.mk (s.data.map Char.toLower)

/-- Python's `str.upper()` (ASCII model). -/
def pyUpper (s : String) : String := String.mk (s.data.map Char.toUpper)

/-- Helper for `splitWords`: scan the characters, building the current
word in reverse in the accumulator and emitting it at each whitespace
boundary. -/
def split_words_aux : List Char → List Char → List String
  | [], acc => if acc.isEmpty then [] else [String.mk acc.reverse]
  | c :: cs, acc =>
    if isSpaceChar c then
      if acc.isEmpty then split_words_aux cs [] else String.mk acc.reverse :: split_words_aux cs []
    else split_words_aux cs (c :: acc)

/-- Python's `str.split()` with no argument: split on whitespace runs,
discarding empty pieces. -/
def splitWords (s : String) : List String := split_words_aux s.data []

/-! ### `re.search(r'text detected:\s*(.*?)(?:\n|$)', text)`

After the literal, `\s*` is greedy (consuming newlines as well) and the
non-greedy `(.*?)` then captures up to the next newline or the end of the
input; the remainder of the pattern always succeeds, so the overall
leftmost match starts at the first occurrence of the literal. -/

/-- Capture group of the detected-text regex, starting just after the
literal `text detected:`. -/
def detected_after (l : List Char) : List Char :=
  (l.dropWhile isSpaceChar).takeWhile (fun c => c ≠ '\n')

/-- Leftmost search for the detected-text pattern; returns the capture. -/
def search_text_detected : List Char → Option (List Char)
  | [] => none
  | c :: cs =>
    if "text detected:".data.isPrefixOf (c :: cs) then
      some (detected_after ((c :: cs).drop 14))
    else search_text_detected cs

/-! ### `re.search(r'confidence[\s:]*(score)?[\s:]*([\d\.]+)(?:\/10)?', text)`

After the literal `confidence`, the greedy `[\s:]*` stops at the first
character outside the class; since `score` and any digit start outside
`[\s:]`, backtracking over shorter runs can never succeed where the greedy
run failed, so the search reduces to: skip a `[\s:]` run, optionally
consume a literal `score` followed by another `[\s:]` run, then require at
least one `[\d.]` character and capture the maximal `[\d.]` run.  A start
position where this fails is abandoned and the scan resumes one character
further right. -/

/-- Attempt to match the tail of the confidence pattern just after the
literal `confidence`; returns the capture group `([\d\.]+)`. -/
def conf_after (l : List Char) : Option (List Char) :=
  let l1 := l.dropWhile isSpaceColon
  let l2 := if "score".data.isPrefixOf l1 then (l1.drop 5).dropWhile isSpaceColon else l1
  let cap := l2.takeWhile isDigitDot
  if cap.isEmpty then none else some cap

/-- Leftmost search for the confidence pattern; returns the numeric capture. -/
def search_confidence : List Char → Option (List Char)
  | [] => none
  | c :: cs =>
    if "confidence".data.isPrefixOf (c :: cs) then
      match conf_after ((c :: cs).drop 10) with
      | some cap => some cap
      | none => search_confidence cs
    else search_confidence cs

/-! ### `re.search(r'unmatched[\s\-]*([\w\s]+)', text)`

After the literal, the greedy `[\s\-]*` consumes the maximal run of
whitespace and hyphens; the capture `([\w\s]+)` then takes the maximal run
of word/whitespace characters.  If that run is empty the engine backtracks
into the `[\s\-]*` run one character at a time, so the capture becomes the
last whitespace character of the run (hyphens cannot start the capture);
with no whitespace in the run the position fails and scanning resumes. -/

/-- Attempt to match the tail of the unmatched pattern just after the
literal `unmatched`; returns the capture group `([\w\s]+)`. -/
def unmatched_after (l : List Char) : Option (List Char) :=
  let r := l.takeWhile isSpaceHyphen
  let t := (l.drop r.length).takeWhile (fun c => isWordChar c || isSpaceChar c)
  if !t.isEmpty then some t
  else
    match r.reverse.find? isSpaceChar with
    | some c => some [c]
    | none => none

/-- Leftmost search for the unmatched pattern; returns the capture. -/
def search_unmatched : List Char → Option (List Char)
  | [] => none
  | c :: cs =>
    if "unmatched".data.isPrefixOf (c :: cs) then
      match unmatched_after ((c :: cs).drop 9) with
      | some cap => some cap
      | none => search_unmatched cs
    else search_unmatched cs

/-! ### Python `float()` on a `[\d.]+` capture -/

/-- Value of a digit string read in base 10. -/
def digitsToNat (l : List Char) : Nat :=
  l.foldl (fun a c => 10 * a + (c.toNat - 48)) 0

/-- Python `float()` restricted to strings over digits and dots (the only
strings the confidence capture can produce): succeeds exactly when there
is at most one dot and at least one digit; the value is exact (`ℚ`). -/
def pyFloatParse (l : List Char) : Option ℚ :=
  if l.all isDigitDot ∧ (l.filter (fun c => c = '.')).length ≤ 1 ∧ l.any Char.isDigit then
    let ip := l.takeWhile Char.isDigit
    let frac := (l.drop ip.length).drop 1
    some ((digitsToNat ip : ℚ) + (digitsToNat frac : ℚ) / (10 ^ frac.length))
  else none

/-- Lines 220–229 of `image_analyzer.py`: extract the reported confidence
from the (already lowercased) text; parse failures are caught and yield 0,
and a parsed value exceeding 10 is divided by 10. -/
def reported_confidence (text : String) : ℚ :=
  match search_confidence text.data with
  | none => 0
  | some cap =>
    match pyFloatParse cap with
    | none => 0
    | some v => if v > 10 then v / 10 else v

/-! ### Matching (lines 235–271 of `image_analyzer.py`) -/

/-- Phase A (lines 240–248): scan the catalog in order and return the
first entry that is in a substring relation (either way) with the
detected text. -/
def phaseA (descriptions : List String) (detected_text : List Char) : Option String :=
  descriptions.find? (fun description =>
    let desc_normalized := (pyLower description).data
    hasSub detected_text desc_normalized || hasSub desc_normalized detected_text)

/-- Normalized bag-of-words overlap score of one catalog entry against the
lowercased full text (lines 252–267); entries that tokenize to zero words
score 0. -/
def entry_score (text : String) (description : String) : ℚ :=
  let desc_words := splitWords (pyLower description)
  let base_score :=
    (desc_words.filter (fun word => decide (word.length > 2) && hasSub word.data text.data)).length
  if desc_words.length > 0 then (base_score : ℚ) / (desc_words.length : ℚ) else 0

/-- One step of the Phase-B loop (lines 252–271): entries with at least
one word are compared against the running best with a strict `>`. -/
def phaseB_step (text : String) (acc : Option String × ℚ) (description : String) :
    Option String × ℚ :=
  let desc_words := splitWords (pyLower description)
  if desc_words.length > 0 then
    let normalized_score :=
      ((desc_words.filter (fun word =>
          decide (word.length > 2) && hasSub word.data text.data)).length : ℚ) /
        (desc_words.length : ℚ)
    if normalized_score > acc.2 then (some description, normalized_score) else acc
  else acc

/-- Phase B: fold the catalog from `best_match = None`, `best_score = 0`. -/
def phaseB (descriptions : List String) (text : String) : Option String × ℚ :=
  descriptions.foldl (phaseB_step text) (none, 0)

/-- Lines 235–271 combined: Phase A runs only when the detected text is
nonempty; Phase B runs exactly when Phase A produced no match. -/
def match_phase (descriptions : List String) (text : String) (detected_text : List Char) :
    Option String × ℚ :=
  if detected_text ≠ [] then
    match phaseA descriptions detected_text with
    | some d => (some d, (9 : ℚ) / 10)
    | none => phaseB descriptions text
  else phaseB descriptions text

/-! ### `re.sub(r'text detected:.*?\n', '', text)` and
`re.sub(r'confidence score:.*?\n', '', text)` (lines 322–323)

Each match is the literal followed by the shortest run of non-newline
characters up to and including a newline; an occurrence of the literal
not followed (on the same line) by a newline does not match.  `re.sub`
removes the non-overlapping leftmost matches and resumes scanning after
each removal.  The fuel argument (instantiated with the list length, an
upper bound on the number of steps since every step consumes at least one
character) makes the recursion structural. -/

/-- One generic substitution pass removing `lit` + rest-of-line + newline. -/
def sub_line_pattern (lit : List Char) : Nat → List Char → List Char
  | 0, l => l
  | _ + 1, [] => []
  | fuel + 1, c :: cs =>
    if lit.isPrefixOf (c :: cs) then
      let rest := (c :: cs).drop lit.length
      match rest.drop (rest.takeWhile (fun a => a ≠ '\n')).length with
      | '\n' :: tail => sub_line_pattern lit fuel tail
      | _ => c :: sub_line_pattern lit fuel cs
    else c :: sub_line_pattern lit fuel cs

/-- Remove every `text detected: …⏎` fragment. -/
def strip_text_detected (l : List Char) : List Char :=
  sub_line_pattern "text detected:".data l.length l

/-- Remove every `confidence score: …⏎` fragment. -/
def strip_confidence_score (l : List Char) : List Char :=
  sub_line_pattern "confidence score:".data l.length l

/-- Lines 321–328: tokens of the stripped text that are alphabetic and
longer than two characters, uppercased, in original order. -/
def unmatched_food_words (text : String) : List String :=
  let food_description :=
    String.mk (strip_confidence_score (strip_text_detected text.data))
  ((splitWords food_description).filter
      (fun word => decide (word.length > 2) && word.data.all Char.isAlpha)).map pyUpper

/-- Lines 213–218: the detected text used by Phase A — the regex capture,
stripped and lowercased; the empty list when the marker is absent. -/
def detected_text_of (text : String) : List Char :=
  match search_text_detected text.data with
  | some g => (stripChars g).map Char.toLower
  | none => []

/-! ### The match record produced by `find_best_match` -/

/-- Result record of `find_best_match` (the `synergy_notes` /
`analysis_methods` pass-through keys of lines 335–341 are carried
unchanged from the input and are not modelled).  The general branch of
the source omits the `is_explicit_unmatched` key, which downstream code
reads as false. -/
structure MatchResult where
  «match» : Option String
  score : ℚ
  confidence : ℚ
  original_confidence : ℚ
  synergy_boost : ℚ
  is_explicit_unmatched : Bool
  unmatched_reason : Option String
deriving Repr, DecidableEq

/-- Lines 201–343 of `image_analyzer.py`: `find_best_match`, taking the
analysis `description`, the catalog and the `confidence_boost` value of
the analysis dictionary (0 when the key is absent). -/
def find_best_match (descriptions : List String) (description : String)
    (confidence_boost : ℚ) : MatchResult :=
  let text := pyLower description
  let detected_text := detected_text_of text
  let confidence_score := reported_confidence text
  let unmatched_capture := search_unmatched text.data
  let bm_bs := match_phase descriptions text detected_text
  let best_match := bm_bs.1
  let best_score := bm_bs.2
  match unmatched_capture with
  | some cap =>
    let unmatched_desc := String.mk ((stripChars cap).map Char.toUpper)
    let base_confidence :=
      if confidence_score > 0 then confidence_score / 10
      else max ((3 : ℚ) / 10) best_score
    let final_confidence := min (base_confidence + confidence_boost) ((9 : ℚ) / 10)
    { «match» := some ("UNMATCHED " ++ unmatched_desc),
      score := best_score,
      confidence := final_confidence,
      original_confidence := base_confidence,
      synergy_boost := confidence_boost,
      is_explicit_unmatched := true,
      unmatched_reason := some "AI explicitly marked as unmatched" }
  | none =>
    let final_confidence :=
      if confidence_score > 0 then min (confidence_score / 10 + confidence_boost) 1
      else min (best_score + confidence_boost) 1
    let original_confidence :=
      if confidence_score > 0 then confidence_score / 10 else best_score
    let base : MatchResult :=
      { «match» := best_match,
        score := best_score,
        confidence := final_confidence,
        original_confidence := original_confidence,
        synergy_boost := confidence_boost,
        is_explicit_unmatched := false,
        unmatched_reason := none }
    if best_match.isNone || decide (best_score < (3 : ℚ) / 10) then
      let abbrev_desc := String.intercalate " " ((unmatched_food_words text).take 4)
      { base with
          «match» := some ("UNMATCHED " ++ abbrev_desc),
          unmatched_reason := some "No good match found" }
    else base

/-! ### Filename synthesis (`_create_match_filename`, lines 345–393, and
`sanitize_filename` of `file_utils.py`) -/

/-- `os.path.splitext` on a bare file name: the extension starts at the
last dot, except that leading dots of the name never start an extension. -/
def splitext_data (l : List Char) : List Char × List Char :=
  let lead := l.takeWhile (fun c => c = '.')
  let rest := l.drop lead.length
  let r := rest.reverse
  let after := r.takeWhile (fun c => c ≠ '.')
  if after.length = r.length then (l, [])
  else (lead ++ (r.drop (after.length + 1)).reverse, '.' :: after.reverse)

/-- `re.sub(r'[^\w\-]', '_', name, flags=re.ASCII)`: every character
outside `[A-Za-z0-9_-]` becomes an underscore, one for one. -/
def sanitize_filename (name : String) : String :=
  String.mk (name.data.map (fun c => if isWordChar c || c = '-' then c else '_'))

/-- `re.sub(r'\s+', '_', s)`: each maximal whitespace run becomes a single
underscore.  The flag records whether the previous character was part of
a whitespace run. -/
def collapse_ws_aux : List Char → Bool → List Char
  | [], _ => []
  | c :: cs, in_run =>
    if isSpaceChar c then
      if in_run then collapse_ws_aux cs true else '_' :: collapse_ws_aux cs true
    else c :: collapse_ws_aux cs false

/-- `re.sub(r'\s+', '_', s)` on strings. -/
def collapse_ws (s : String) : String := String.mk (collapse_ws_aux s.data false)

/-- Case-insensitive prefix test (ASCII model of `re.IGNORECASE`). -/
def ciPrefixOf : List Char → List Char → Bool
  | [], _ => true
  | _ :: _, [] => false
  | a :: as, b :: bs => (Char.toLower a = Char.toLower b) && ciPrefixOf as bs

/-- `re.sub(r'CONFIDENCE[^\w]*SCORE.*', '', s, flags=re.IGNORECASE)`
(line 370).  The greedy `[^\w]*` stops at the first word character, which
is the only position the literal `SCORE` (starting with a word character)
can match, so no backtracking arises; `.*` consumes to the end of the
line.  Fuel as in `sub_line_pattern`. -/
def sub_confidence_fragment : Nat → List Char → List Char
  | 0, l => l
  | _ + 1, [] => []
  | fuel + 1, c :: cs =>
    if ciPrefixOf "confidence".data (c :: cs) then
      let rest2 := ((c :: cs).drop 10).dropWhile (fun a => !isWordChar a)
      if ciPrefixOf "score".data rest2 then
        sub_confidence_fragment fuel ((rest2.drop 5).dropWhile (fun a => a ≠ '\n'))
      else c :: sub_confidence_fragment fuel cs
    else c :: sub_confidence_fragment fuel cs

/-- Truncate-toward-zero conversion, Python's `int()` on a float. -/
def pyInt (q : ℚ) : ℤ := if 0 ≤ q then ⌊q⌋ else -⌊-q⌋

/-- Lines 345–393: `_create_match_filename`, taking the `match`,
`confidence` (0 when absent) and `file_name` (`"unknown.jpeg"` when
absent) entries of the analysis dictionary.  An absent or empty match
returns the original file name. -/
def create_match_filename (match_opt : Option String) (confidence : ℚ)
    (file_name : String) : String :=
  let ext := String.mk (splitext_data file_name.data).2
  match match_opt with
  | none => file_name
  | some match_description =>
    if match_description = "" then file_name
    else if "UNMATCHED".data.isPrefixOf match_description.data then
      let food_description := stripChars (match_description.data.drop 9)
      let food_description2 :=
        stripChars (sub_confidence_fragment food_description.length food_description)
      let food_description3 := collapse_ws (String.mk food_description2)
      let food_description4 := sanitize_filename food_description3
      let conf_pct := pyInt (confidence * 100)
      "UNMATCHED_" ++ food_description4 ++ "_conf" ++ toString conf_pct ++ ext
    else
      let clean_description := sanitize_filename match_description
      let clean_description2 := collapse_ws clean_description
      let conf_pct := pyInt (confidence * 100)
      clean_description2 ++ "_conf" ++ toString conf_pct ++ ext

/-! ### Fusion (`combine_analysis_results`, lines 137–199) -/

/-- One detected-text item of the Vision analysis. -/
structure VisionTextItem where
  text : String
  confidence : ℚ
deriving Repr, DecidableEq

/-- One tag of the Vision analysis. -/
structure VisionTag where
  name : String
  confidence : ℚ
deriving Repr, DecidableEq

/-- The parts of the Vision analysis dictionary read by
`combine_analysis_results`. -/
structure VisionAnalysis where
  text : List VisionTextItem
  tags : List VisionTag
deriving Repr, DecidableEq

/-- The fixed food-category vocabulary of lines 175–176. -/
def food_tag_vocabulary : List String :=
  ["food", "sandwich", "bread", "burger", "meal", "lunch", "dinner", "breakfast",
   "plate", "meat", "cheese", "vegetable", "dessert", "salad", "wrap"]

/-- Loop of lines 179–183: append `⏎Vision API detected: <tag>` for each
tag not already a case-insensitive substring of the running text, and
collect the tags actually added. -/
def add_food_tags (combined : String) (food_tags : List String) : String × List String :=
  food_tags.foldl
    (fun acc tag =>
      if hasSub (pyLower tag).data (pyLower acc.1).data then acc
      else (acc.1 ++ "\nVision API detected: " ++ tag, acc.2 ++ [tag]))
    (combined, [])

/-- Lines 158–168: the detected-text merge stage — when the Vision list
is nonempty, the items with confidence above 0.5 are joined with `" | "`
and, if the result is nonempty and the primary text has no
`TEXT DETECTED:` marker yet, prepended as a `TEXT DETECTED:` line with a
synergy note. -/
def augment_with_text (openai_description : String) (v : VisionAnalysis) :
    String × List String :=
  let text_items := (v.text.filter (fun item => decide (item.confidence > 1/2))).map (·.text)
  let detected_text :=
    if v.text ≠ [] ∧ text_items ≠ [] then String.intercalate " | " text_items else ""
  if detected_text ≠ "" ∧ ¬ (hasSub "TEXT DETECTED:".data openai_description.data = true) then
    ("TEXT DETECTED: " ++ detected_text ++ "\n" ++ openai_description,
     ["Added Vision API text detection"])
  else (openai_description, ([] : List String))

/-- Lines 173–176: the names of the tags with confidence above 0.7 that
belong to the food vocabulary, in order. -/
def food_tag_names (v : VisionAnalysis) : List String :=
  (v.tags.filter (fun tag =>
    decide (tag.confidence > 7/10) && food_tag_vocabulary.contains tag.name)).map (·.name)

/-- Lines 137–199: `combine_analysis_results`, returning the combined
description, the synergy notes and the confidence boost (the printing
helper of line 189 has no effect on the result).  The `file_name` and
sub-analysis pass-through fields are not modelled. -/
def combine_analysis_results (openai_description : String)
    (vision : Option VisionAnalysis) : String × List String × ℚ :=
  match vision with
  | none => (openai_description, [], 0)
  | some v =>
    let step1 := augment_with_text openai_description v
    let food_tags := food_tag_names v
    if v.tags ≠ [] ∧ food_tags ≠ [] then
      let res := add_food_tags step1.1 food_tags
      let notes2 :=
        if res.2 ≠ [] then
          step1.2 ++ ["Added Vision API food tags: " ++ String.intercalate ", " res.2]
        else step1.2
      (res.1, notes2, 0)
    else (step1.1, step1.2, 0)

/-! ### Exception-explicit pipeline

Every operation of the pipeline that can raise in Python is made explicit
in the `Except` monad: the only such operation is the `float()` call of
line 225, whose failure is caught by the `except ValueError` handler of
lines 228–229.  The claim that the pipeline never raises is the statement
that this version always returns `Except.ok`. -/

/-- Python `float()` as a fallible operation. -/
def pyFloatE (l : List Char) : Except String ℚ :=
  match pyFloatParse l with
  | some v => Except.ok v
  | none => Except.error "ValueError: could not convert string to float"

/-- Lines 220–229 with the `try`/`except ValueError` structure explicit. -/
def reported_confidence_e (text : String) : Except String ℚ :=
  match search_confidence text.data with
  | none => Except.ok 0
  | some cap =>
    match pyFloatE cap with
    | Except.ok v => Except.ok (if v > 10 then v / 10 else v)
    | Except.error _ => Except.ok 0

/-- `find_best_match` with the fallible confidence extraction threaded
through `Except`; all other operations of the source are total. -/
def find_best_match_e (descriptions : List String) (description : String)
    (confidence_boost : ℚ) : Except String MatchResult := do
  let text := pyLower description
  let detected_text := detected_text_of text
  let confidence_score ← reported_confidence_e text
  let unmatched_capture := search_unmatched text.data
  let bm_bs := match_phase descriptions text detected_text
  let best_match := bm_bs.1
  let best_score := bm_bs.2
  match unmatched_capture with
  | some cap =>
    let unmatched_desc := String.mk ((stripChars cap).map Char.toUpper)
    let base_confidence :=
      if confidence_score > 0 then confidence_score / 10
      else max ((3 : ℚ) / 10) best_score
    let final_confidence := min (base_confidence + confidence_boost) ((9 : ℚ) / 10)
    pure
      { «match» := some ("UNMATCHED " ++ unmatched_desc),
        score := best_score,
        confidence := final_confidence,
        original_confidence := base_confidence,
        synergy_boost := confidence_boost,
        is_explicit_unmatched := true,
        unmatched_reason := some "AI explicitly marked as unmatched" }
  | none =>
    let final_confidence :=
      if confidence_score > 0 then min (confidence_score / 10 + confidence_boost) 1
      else min (best_score + confidence_boost) 1
    let original_confidence :=
      if confidence_score > 0 then confidence_score / 10 else best_score
    let base : MatchResult :=
      { «match» := best_match,
        score := best_score,
        confidence := final_confidence,
        original_confidence := original_confidence,
        synergy_boost := confidence_boost,
        is_explicit_unmatched := false,
        unmatched_reason := none }
    if best_match.isNone || decide (best_score < (3 : ℚ) / 10) then
      let abbrev_desc := String.intercalate " " ((unmatched_food_words text).take 4)
      pure
        { base with
            «match» := some ("UNMATCHED " ++ abbrev_desc),
            unmatched_reason := some "No good match found" }
    else pure base

/-- The per-image core pipeline on one already-combined analysis text:
matching followed by filename synthesis (lines 126–133). -/
def analyze_pipeline (descriptions : List String) (description : String)
    (confidence_boost : ℚ) (file_name : String) : MatchResult × String :=
  let r := find_best_match descriptions description confidence_boost
  (r, create_match_filename r.«match» r.confidence file_name)

/-- The exception-explicit pipeline (`_create_match_filename` contains no
fallible operation, so only the matcher contributes `Except` steps). -/
def analyze_pipeline_e (descriptions : List String) (description : String)
    (confidence_boost : ℚ) (file_name : String) : Except String (MatchResult × String) := do
  let r ← find_best_match_e descriptions description confidence_boost
  pure (r, create_match_filename r.«match» r.confidence file_name)

/-! ### Auxiliary definitions for the statements -/

/-- The extension part of a file name, as computed by line 357. -/
def file_extension (file_name : String) : String :=
  String.mk (splitext_data file_name.data).2

/-- A simplified Phase-B step equal to `phaseB_step` whenever the running
best score is nonnegative (used to characterize the fold). -/
def phaseB_simple_step (text : String) (acc : Option String × ℚ) (description : String) :
    Option String × ℚ :=
  if entry_score text description > acc.2 then (some description, entry_score text description)
  else acc

/-- Modelled from the spec: the matched-path filename as §4.6 of the spec
words it — collapse whitespace runs to single underscores FIRST, then
apply the character sanitizer (the source applies the two steps in the
opposite order).  Used only for comparison with `create_match_filename`. -/
def spec_matched_filename (m : String) (confidence : ℚ) (file_name : String) : String :=
  sanitize_filename (collapse_ws m) ++ "_conf" ++ toString (pyInt (confidence * 100)) ++
    file_extension file_name

/-- The concatenation of the `⏎Vision API detected: <tag>` lines for a
list of tags, used to state what fusion appends to the text. -/
def appended_tag_lines : List String → String
  | [] => ""
  | t :: ts => "\nVision API detected: " ++ t ++ appended_tag_lines ts

/-! ## Lemmas -/

theorem mk_data (l : List Char) : (String.mk l).data = l := rfl

theorem mk_append (l m : List Char) : String.mk l ++ String.mk m = String.mk (l ++ m) := rfl

theorem pyLower_append (a b : String) :
    pyLower (a ++ b) = pyLower a ++ pyLower b := by
  simp [pyLower, mk_append]

theorem hasSub_nil (l : List Char) : hasSub [] l = true := by
  cases l <;> simp [hasSub, List.isPrefixOf]

theorem hasSub_self (n : List Char) : hasSub n n = true := by
  cases n with
  | nil => simp [hasSub]
  | cons c cs => simp [hasSub]

theorem hasSub_append_right (n h h₂ : List Char) (hh : hasSub n h = true) :
    hasSub n (h ++ h₂) = true := by
  induction h with
  | nil =>
    simp [hasSub] at hh
    subst hh
    exact hasSub_nil h₂
  | cons c cs ih =>
    simp [hasSub] at hh ⊢
    rcases hh with hp | hs
    · exact Or.inl (hp.trans ⟨h₂, rfl⟩)
    · exact Or.inr (ih hs)

theorem hasSub_append_left (n p h : List Char) (hh : hasSub n h = true) :
    hasSub n (p ++ h) = true := by
  induction p with
  | nil => simpa using hh
  | cons c cs ih => simp [hasSub, ih]

/-- Characters produced by the sanitizer all lie in `[A-Za-z0-9_-]`. -/
theorem sanitize_filename_chars (s : String) :
    ∀ c ∈ (sanitize_filename s).data, (isWordChar c || c = '-') = true := by
  intro c hc
  simp only [sanitize_filename, mk_data, List.mem_map] at hc
  obtain ⟨x, _, hx⟩ := hc
  by_cases h : (isWordChar x || x = '-') = true
  · rw [if_pos h] at hx
    subst hx
    exact h
  · rw [if_neg h] at hx
    subst hx
    decide

/-- Characters in `[A-Za-z0-9_-]` are not whitespace. -/
theorem not_space_of_sane (c : Char) (h : (isWordChar c || c = '-') = true) :
    isSpaceChar c = false := by
  cases hs : isSpaceChar c
  · rfl
  · exfalso
    have hc : c = ' ' ∨ c = '\t' ∨ c = '\n' ∨ c = '\r' ∨ c = '\x0b' ∨ c = '\x0c' := by
      simpa [isSpaceChar, or_assoc] using hs
    rcases hc with h1 | h1 | h1 | h1 | h1 | h1 <;> (subst h1; exact absurd h (by decide))

/-- Whitespace collapsing is the identity on whitespace-free inputs. -/
theorem collapse_ws_aux_id :
    ∀ (l : List Char) (b : Bool), (∀ c ∈ l, isSpaceChar c = false) →
      collapse_ws_aux l b = l := by
  intro l
  induction l with
  | nil => intro b _; rfl
  | cons c cs ih =>
    intro b hl
    have hc : isSpaceChar c = false := hl c (List.mem_cons_self c cs)
    simp [collapse_ws_aux, hc, ih false (fun a ha => hl a (List.mem_cons_of_mem c ha))]

/-- Every character of a collapsed string is a character of the input or
an underscore. -/
theorem collapse_ws_aux_chars :
    ∀ (l : List Char) (b : Bool) (c : Char), c ∈ collapse_ws_aux l b → c ∈ l ∨ c = '_' := by
  intro l
  induction l with
  | nil => intro b c hc; cases hc
  | cons a as ih =>
    intro b c hc
    by_cases ha : isSpaceChar a = true
    · by_cases hb : b = true
      · rw [collapse_ws_aux, if_pos ha, if_pos hb] at hc
        rcases ih true c hc with h | h
        · exact Or.inl (List.mem_cons_of_mem a h)
        · exact Or.inr h
      · rw [collapse_ws_aux, if_pos ha, if_neg hb] at hc
        rcases List.mem_cons.mp hc with h | h
        · exact Or.inr h
        · rcases ih true c h with h2 | h2
          · exact Or.inl (List.mem_cons_of_mem a h2)
          · exact Or.inr h2
    · rw [collapse_ws_aux, if_neg ha] at hc
      rcases List.mem_cons.mp hc with h | h
      · exact Or.inl (h ▸ List.mem_cons_self a as)
      · rcases ih false c h with h2 | h2
        · exact Or.inl (List.mem_cons_of_mem a h2)
        · exact Or.inr h2

/-- Collapsing whitespace after sanitizing is the identity: the sanitizer
leaves no whitespace behind. -/
theorem collapse_ws_sanitize (s : String) :
    collapse_ws (sanitize_filename s) = sanitize_filename s := by
  have h : ∀ c ∈ (sanitize_filename s).data, isSpaceChar c = false :=
    fun c hc => not_space_of_sane c (sanitize_filename_chars s c hc)
  show String.mk (collapse_ws_aux (sanitize_filename s).data false) = sanitize_filename s
  rw [collapse_ws_aux_id _ false h]

/-! ### Score bounds and the Phase-B fold -/

theorem entry_score_nonneg (text description : String) : 0 ≤ entry_score text description := by
  simp only [entry_score]
  split
  · exact div_nonneg (Nat.cast_nonneg _) (Nat.cast_nonneg _)
  · exact le_refl 0

theorem entry_score_le_one (text description : String) : entry_score text description ≤ 1 := by
  simp only [entry_score]
  split
  · rename_i h
    rw [div_le_one (by exact_mod_cast h)]
    exact_mod_cast List.length_filter_le _ _
  · exact zero_le_one

theorem phaseB_step_eq_simple (text : String) (acc : Option String × ℚ)
    (description : String) (hacc : 0 ≤ acc.2) :
    phaseB_step text acc description = phaseB_simple_step text acc description := by
  by_cases h : (splitWords (pyLower description)).length > 0
  · simp only [phaseB_step, phaseB_simple_step, entry_score, if_pos h]
  · simp only [phaseB_step, phaseB_simple_step, entry_score, if_neg h,
      if_neg (not_lt.mpr hacc)]

theorem phaseB_simple_step_nonneg (text : String) (acc : Option String × ℚ)
    (description : String) (hacc : 0 ≤ acc.2) :
    0 ≤ (phaseB_simple_step text acc description).2 := by
  unfold phaseB_simple_step
  split
  · exact entry_score_nonneg text description
  · exact hacc

theorem foldl_phaseB_eq_simple (text : String) :
    ∀ (l : List String) (acc : Option String × ℚ), 0 ≤ acc.2 →
      l.foldl (phaseB_step text) acc = l.foldl (phaseB_simple_step text) acc := by
  intro l
  induction l with
  | nil => intro acc _; rfl
  | cons d ds ih =>
    intro acc hacc
    rw [List.foldl_cons, List.foldl_cons, phaseB_step_eq_simple text acc d hacc]
    exact ih _ (phaseB_simple_step_nonneg text acc d hacc)

/-- Characterization of the Phase-B fold: either no entry beats the
initial score and the accumulator is returned unchanged, or the returned
entry is the first one attaining the maximum score among those beating
the initial score. -/
theorem foldl_simple_sel (text : String) :
    ∀ (l : List String) (acc : Option String × ℚ),
      (l.foldl (phaseB_simple_step text) acc = acc ∧
        ∀ i : Fin l.length, entry_score text (l.get i) ≤ acc.2) ∨
      (∃ k : Fin l.length,
        l.foldl (phaseB_simple_step text) acc =
          (some (l.get k), entry_score text (l.get k)) ∧
        acc.2 < entry_score text (l.get k) ∧
        (∀ i : Fin l.length, entry_score text (l.get i) ≤ entry_score text (l.get k)) ∧
        (∀ i : Fin l.length, i.val < k.val →
          entry_score text (l.get i) < entry_score text (l.get k))) := by
  intro l
  induction l with
  | nil =>
    intro acc
    exact Or.inl ⟨rfl, fun i => absurd i.isLt (by simp)⟩
  | cons d ds ih =>
    intro acc
    by_cases hd : entry_score text d > acc.2
    · have hstep : phaseB_simple_step text acc d = (some d, entry_score text d) := by
        unfold phaseB_simple_step
        rw [if_pos hd]
      rcases ih (some d, entry_score text d) with ⟨heq, hall⟩ | ⟨k, heq, hgt, hall, hfirst⟩
      · refine Or.inr ⟨⟨0, Nat.succ_pos _⟩, ?_, hd, ?_, ?_⟩
        · rw [List.foldl_cons, hstep, heq]
          rfl
        · intro i
          induction i using Fin.cases with
          | zero => exact le_refl _
          | succ j => exact hall j
        · intro i hi
          exact absurd hi (by simp)
      · refine Or.inr ⟨k.succ, ?_, ?_, ?_, ?_⟩
        · rw [List.foldl_cons, hstep]
          exact heq
        · exact lt_trans hd hgt
        · intro i
          induction i using Fin.cases with
          | zero => exact le_of_lt hgt
          | succ j => exact hall j
        · intro i hi
          induction i using Fin.cases with
          | zero => exact hgt
          | succ j => exact hfirst j (Nat.lt_of_succ_lt_succ hi)
    · have hstep : phaseB_simple_step text acc d = acc := by
        unfold phaseB_simple_step
        rw [if_neg hd]
      push_neg at hd
      rcases ih acc with ⟨heq, hall⟩ | ⟨k, heq, hgt, hall, hfirst⟩
      · refine Or.inl ⟨?_, ?_⟩
        · rw [List.foldl_cons, hstep, heq]
        · intro i
          induction i using Fin.cases with
          | zero => exact hd
          | succ j => exact hall j
      · refine Or.inr ⟨k.succ, ?_, hgt, ?_, ?_⟩
        · rw [List.foldl_cons, hstep]
          exact heq
        · intro i
          induction i using Fin.cases with
          | zero => exact le_of_lt (lt_of_le_of_lt hd hgt)
          | succ j => exact hall j
        · intro i hi
          induction i using Fin.cases with
          | zero => exact lt_of_le_of_lt hd hgt
          | succ j => exact hfirst j (Nat.lt_of_succ_lt_succ hi)

theorem pyFloatParse_nonneg (l : List Char) (v : ℚ) (h : pyFloatParse l = some v) :
    0 ≤ v := by
  simp only [pyFloatParse] at h
  split at h
  · obtain rfl : _ = v := Option.some.inj h
    positivity
  · exact absurd h (by simp)

theorem reported_confidence_nonneg (text : String) : 0 ≤ reported_confidence text := by
  unfold reported_confidence
  cases h : search_confidence text.data with
  | none =>
    simp only [h]
    exact le_rfl
  | some cap =>
    simp only [h]
    cases h2 : pyFloatParse cap with
    | none =>
      simp only [h2]
      exact le_rfl
    | some v =>
      simp only [h2]
      have hv := pyFloatParse_nonneg cap v h2
      split
      · positivity
      · exact hv

theorem phaseB_score_bounds (descriptions : List String) (text : String) :
    0 ≤ (phaseB descriptions text).2 ∧ (phaseB descriptions text).2 ≤ 1 := by
  unfold phaseB
  rw [foldl_phaseB_eq_simple text descriptions (none, 0) le_rfl]
  rcases foldl_simple_sel text descriptions (none, 0) with ⟨heq, _⟩ | ⟨k, heq, _, _, _⟩
  · rw [heq]
    exact ⟨le_rfl, zero_le_one⟩
  · rw [heq]
    exact ⟨entry_score_nonneg _ _, entry_score_le_one _ _⟩

theorem match_phase_score_bounds (descriptions : List String) (text : String)
    (detected_text : List Char) :
    0 ≤ (match_phase descriptions text detected_text).2 ∧
      (match_phase descriptions text detected_text).2 ≤ 1 := by
  unfold match_phase
  split
  · cases hA : phaseA descriptions detected_text with
    | none => simpa only [hA] using phaseB_score_bounds descriptions text
    | some d =>
      simp only [hA]
      norm_num
  · exact phaseB_score_bounds descriptions text

theorem match_phase_eq_phaseB (descriptions : List String) (text : String)
    (detected_text : List Char)
    (h : detected_text = [] ∨ phaseA descriptions detected_text = none) :
    match_phase descriptions text detected_text = phaseB descriptions text := by
  unfold match_phase
  rcases h with h | h
  · subst h
    simp
  · by_cases hdt : detected_text ≠ []
    · simp only [if_pos hdt, h]
    · simp only [if_neg hdt]

/-! ## Claims -/

/-- C1: for every input to the matching/resolution pipeline (any analysis
text, any catalog, with the reference fusion policy's synergy boost of 0),
the emitted record satisfies `0 ≤ confidence ≤ 1`, and whenever
`is_explicit_unmatched` is true, `confidence ≤ 0.9`. -/
theorem confidence_within_bounds (descriptions : List String) (description : String) :
    0 ≤ (find_best_match descriptions description 0).confidence ∧
    (find_best_match descriptions description 0).confidence ≤ 1 ∧
    ((find_best_match descriptions description 0).is_explicit_unmatched = true →
      (find_best_match descriptions description 0).confidence ≤ 9 / 10) := by
  have hcs := reported_confidence_nonneg (pyLower description)
  have hbs := match_phase_score_bounds descriptions (pyLower description)
    (detected_text_of (pyLower description))
  cases hu : search_unmatched (pyLower description).data with
  | some cap =>
    simp only [find_best_match, hu, add_zero]
    have hbase :
        (0:ℚ) ≤ if reported_confidence (pyLower description) > 0 then
            reported_confidence (pyLower description) / 10
          else max ((3:ℚ)/10)
            (match_phase descriptions (pyLower description)
              (detected_text_of (pyLower description))).2 := by
      split
      · positivity
      · exact le_trans (by norm_num) (le_max_left _ _)
    refine ⟨le_min hbase (by norm_num), le_trans (min_le_right _ _) (by norm_num),
      fun _ => min_le_right _ _⟩
  | none =>
    simp only [find_best_match, hu, add_zero]
    have hconf :
        (0:ℚ) ≤ (if reported_confidence (pyLower description) > 0 then
            min (reported_confidence (pyLower description) / 10) 1
          else
            min (match_phase descriptions (pyLower description)
              (detected_text_of (pyLower description))).2 1) ∧
        (if reported_confidence (pyLower description) > 0 then
            min (reported_confidence (pyLower description) / 10) 1
          else
            min (match_phase descriptions (pyLower description)
              (detected_text_of (pyLower description))).2 1) ≤ 1 := by
      constructor
      · split
        · exact le_min (by positivity) zero_le_one
        · exact le_min hbs.1 zero_le_one
      · split
        · exact min_le_right _ _
        · exact min_le_right _ _
    split
    · exact ⟨hconf.1, hconf.2, fun h => absurd h (by simp)⟩
    · exact ⟨hconf.1, hconf.2, fun h => absurd h (by simp)⟩

/-- Witness for C1 at an input that takes the explicit-unmatched branch. -/
theorem confidence_within_bounds_witness :
    (find_best_match [] "unmatched thing" 0).is_explicit_unmatched = true ∧
    (find_best_match [] "unmatched thing" 0).confidence ≤ 9 / 10 :=
  ⟨by decide, (confidence_within_bounds [] "unmatched thing").2.2 (by decide)⟩

/-- C2: when Phase A finds nothing, the Phase-B scan uses a strict
greater-than against the running best, so whenever two catalog entries
achieve equal nonzero maximal Phase-B scores, the selected best match is
an entry listed no later than the earlier of the two, attaining the same
score. -/
theorem tie_break_earliest (descriptions : List String) (text : String)
    (detected_text : List Char)
    (hA : detected_text = [] ∨ phaseA descriptions detected_text = none)
    (i j : Fin descriptions.length) (hij : i.val < j.val)
    (heq : entry_score text (descriptions.get i) = entry_score text (descriptions.get j))
    (hne : entry_score text (descriptions.get i) ≠ 0)
    (hmax : ∀ m : Fin descriptions.length,
      entry_score text (descriptions.get m) ≤ entry_score text (descriptions.get i)) :
    ∃ k : Fin descriptions.length, k.val ≤ i.val ∧
      (match_phase descriptions text detected_text).1 = some (descriptions.get k) ∧
      entry_score text (descriptions.get k) = entry_score text (descriptions.get i) := by
  rw [match_phase_eq_phaseB descriptions text detected_text hA]
  unfold phaseB
  rw [foldl_phaseB_eq_simple text descriptions (none, 0) le_rfl]
  have hpos : (0:ℚ) < entry_score text (descriptions.get i) :=
    lt_of_le_of_ne (entry_score_nonneg _ _) (Ne.symm hne)
  rcases foldl_simple_sel text descriptions (none, 0) with ⟨_, hall⟩ | ⟨k, heqf, _, hall, hfirst⟩
  · exact absurd (hall i) (not_le.mpr hpos)
  · refine ⟨k, ?_, ?_, ?_⟩
    · by_contra hk
      push_neg at hk
      exact absurd (hmax k) (not_le.mpr (hfirst i hk))
    · rw [heqf]
    · exact le_antisymm (hmax k) (hall i)

/-- Witness for C2: two entries tie with score 1/2; the first is chosen. -/
theorem tie_break_earliest_witness :
    ∃ k : Fin (["aaa bbb", "aaa ccc"] : List String).length, k.val ≤ 0 ∧
      (match_phase ["aaa bbb", "aaa ccc"] "aaa" []).1 =
        some (List.get ["aaa bbb", "aaa ccc"] k) ∧
      entry_score "aaa" (List.get ["aaa bbb", "aaa ccc"] k) =
        entry_score "aaa" (List.get ["aaa bbb", "aaa ccc"] ⟨0, by decide⟩) :=
  tie_break_earliest ["aaa bbb", "aaa ccc"] "aaa" [] (Or.inl rfl)
    ⟨0, by decide⟩ ⟨1, by decide⟩ (by decide) (by decide) (by decide) (by decide)

/-- C3 counterexample: the defensive divide-by-10 rescale is applied only
once, so the text `confidence score: 101` parses to 101, rescales to 10.1,
and the emitted `original_confidence` is 1.01 — outside `[0,1]`. -/
theorem original_confidence_counterexample :
    1 < (find_best_match [] "confidence score: 101" 0).original_confidence := by
  decide

/-- C3 amended: `original_confidence` lies in `[0,1]` provided the
(rescaled) reported confidence is at most 10, i.e. the parsed decimal is
at most 100; without that bound it can exceed 1. -/
theorem original_confidence_bounds (descriptions : List String) (description : String)
    (boost : ℚ) (h : reported_confidence (pyLower description) ≤ 10) :
    0 ≤ (find_best_match descriptions description boost).original_confidence ∧
    (find_best_match descriptions description boost).original_confidence ≤ 1 := by
  have hcs := reported_confidence_nonneg (pyLower description)
  have hbs := match_phase_score_bounds descriptions (pyLower description)
    (detected_text_of (pyLower description))
  have hoc :
      (0:ℚ) ≤ (if reported_confidence (pyLower description) > 0 then
          reported_confidence (pyLower description) / 10
        else (match_phase descriptions (pyLower description)
          (detected_text_of (pyLower description))).2) ∧
      (if reported_confidence (pyLower description) > 0 then
          reported_confidence (pyLower description) / 10
        else (match_phase descriptions (pyLower description)
          (detected_text_of (pyLower description))).2) ≤ 1 := by
    constructor
    · split
      · exact div_nonneg hcs (by norm_num)
      · exact hbs.1
    · split
      · linarith
      · exact hbs.2
  cases hu : search_unmatched (pyLower description).data with
  | some cap =>
    simp only [find_best_match, hu]
    constructor
    · split
      · exact div_nonneg hcs (by norm_num)
      · exact le_trans (by norm_num) (le_max_left _ _)
    · split
      · linarith
      · exact max_le (by norm_num) hbs.2
  | none =>
    simp only [find_best_match, hu]
    split
    · exact hoc
    · exact hoc

/-- Witness for C3 amended at a reported confidence of 7. -/
theorem original_confidence_bounds_witness :
    0 ≤ (find_best_match [] "confidence score: 7/10" 0).original_confidence ∧
    (find_best_match [] "confidence score: 7/10" 0).original_confidence ≤ 1 :=
  original_confidence_bounds [] "confidence score: 7/10" 0 (by decide)

theorem reported_confidence_e_eq (text : String) :
    reported_confidence_e text = Except.ok (reported_confidence text) := by
  unfold reported_confidence_e reported_confidence pyFloatE
  cases h : search_confidence text.data with
  | none => simp only [h]
  | some cap =>
    simp only [h]
    cases h2 : pyFloatParse cap with
    | none => simp only [h2]
    | some v => simp only [h2]

theorem find_best_match_e_ok (descriptions : List String) (description : String)
    (confidence_boost : ℚ) :
    find_best_match_e descriptions description confidence_boost =
      Except.ok (find_best_match descriptions description confidence_boost) := by
  unfold find_best_match_e find_best_match
  dsimp only
  rw [reported_confidence_e_eq]
  cases hu : search_unmatched (pyLower description).data with
  | some cap =>
    simp only [hu]
    rfl
  | none =>
    simp only [hu]
    split <;> rfl

/-- C4: the core pipeline (signal extraction with its guarded `float()`
call, matching, confidence resolution, unmatched-label synthesis, and
filename synthesis) never raises: the exception-explicit version always
returns `Except.ok`, for every text, catalog, boost and file name. -/
theorem pipeline_never_raises (descriptions : List String) (description : String)
    (confidence_boost : ℚ) (file_name : String) :
    analyze_pipeline_e descriptions description confidence_boost file_name =
      Except.ok (analyze_pipeline descriptions description confidence_boost file_name) := by
  unfold analyze_pipeline_e analyze_pipeline
  rw [find_best_match_e_ok]
  rfl

/-- C5: when the explicit-unmatched label is absent and the best match is
`None` or its score is below 0.3, the pipeline sets `match` to
`"UNMATCHED "` followed by the first at most four uppercased alphabetic
tokens of length > 2 of the stripped text joined by single spaces, sets
`unmatched_reason` to `"No good match found"`, and the zero-token case
yields exactly `"UNMATCHED "` (trailing space preserved). -/
theorem unmatched_label_synthesis (descriptions : List String) (description : String)
    (boost : ℚ)
    (h1 : search_unmatched (pyLower description).data = none)
    (h2 : (match_phase descriptions (pyLower description)
        (detected_text_of (pyLower description))).1 = none ∨
      (match_phase descriptions (pyLower description)
        (detected_text_of (pyLower description))).2 < 3/10) :
    (find_best_match descriptions description boost).«match» =
      some ("UNMATCHED " ++
        String.intercalate " " ((unmatched_food_words (pyLower description)).take 4)) ∧
    (find_best_match descriptions description boost).unmatched_reason =
      some "No good match found" ∧
    (unmatched_food_words (pyLower description) = [] →
      (find_best_match descriptions description boost).«match» = some "UNMATCHED ") := by
  have hcond :
      ((match_phase descriptions (pyLower description)
          (detected_text_of (pyLower description))).1.isNone ||
        decide ((match_phase descriptions (pyLower description)
          (detected_text_of (pyLower description))).2 < 3/10)) = true := by
    rcases h2 with h | h
    · simp [h]
    · simp [h]
  simp only [find_best_match, h1, hcond, if_true]
  refine ⟨by trivial, by trivial, fun h0 => ?_⟩
  rw [h0]
  decide

/-- Witness for C5 on a text with no markers and an empty catalog. -/
theorem unmatched_label_synthesis_witness :
    (find_best_match [] "blah" 0).«match» =
      some ("UNMATCHED " ++
        String.intercalate " " ((unmatched_food_words (pyLower "blah")).take 4)) ∧
    (find_best_match [] "blah" 0).unmatched_reason = some "No good match found" ∧
    (unmatched_food_words (pyLower "blah") = [] →
      (find_best_match [] "blah" 0).«match» = some "UNMATCHED ") :=
  unmatched_label_synthesis [] "blah" 0 (by decide) (Or.inl (by decide))

/-- C6: for every nonempty match string and confidence in `[0,1]`, the
synthesized filename consists of the (possibly `UNMATCHED_`-prefixed)
sanitized core — whose characters all lie in `[A-Za-z0-9_-]` — followed by
`_conf` and exactly `⌊confidence * 100⌋`, followed by the original
extension. -/
theorem filename_charset_and_conf (m : String) (q : ℚ) (file_name : String)
    (hm : m ≠ "") (h0 : 0 ≤ q) (h1 : q ≤ 1) :
    ∃ core : String,
      create_match_filename (some m) q file_name =
        (if "UNMATCHED".data.isPrefixOf m.data then "UNMATCHED_" ++ core else core) ++
          "_conf" ++ toString ⌊q * 100⌋ ++ file_extension file_name ∧
      ∀ c ∈ core.data, (isWordChar c || c = '-') = true := by
  have hpy : pyInt (q * 100) = ⌊q * 100⌋ := by
    unfold pyInt
    rw [if_pos (by positivity)]
  by_cases hp : "UNMATCHED".data.isPrefixOf m.data = true
  · refine ⟨sanitize_filename (collapse_ws (String.mk (stripChars (sub_confidence_fragment
      (stripChars (m.data.drop 9)).length (stripChars (m.data.drop 9)))))), ?_, ?_⟩
    · simp only [create_match_filename, hm, hp, hpy, if_true, if_false, ite_true, ite_false,
        file_extension]
    · exact sanitize_filename_chars _
  · refine ⟨collapse_ws (sanitize_filename m), ?_, ?_⟩
    · simp only [create_match_filename, hm, hp, hpy, Bool.false_eq_true, if_true, if_false,
        ite_true, ite_false, file_extension]
    · rw [collapse_ws_sanitize]
      exact sanitize_filename_chars m

/-- Witness for C6 on the matched path of the spec's scenario 5. -/
theorem filename_charset_and_conf_witness :
    ∃ core : String,
      create_match_filename (some "Chicken Sandwich") (85/100) "test.jpg" =
        (if "UNMATCHED".data.isPrefixOf "Chicken Sandwich".data then "UNMATCHED_" ++ core
          else core) ++
          "_conf" ++ toString ⌊(85/100 : ℚ) * 100⌋ ++ file_extension "test.jpg" ∧
      ∀ c ∈ core.data, (isWordChar c || c = '-') = true :=
  filename_charset_and_conf "Chicken Sandwich" (85/100) "test.jpg"
    (by decide) (by norm_num) (by norm_num)

/-- C7 counterexample: on the matched path the source sanitizes FIRST and
collapses whitespace afterwards (a no-op), so the match `"a  b"` (two
spaces) yields two underscores, not the single underscore required by the
collapse-then-sanitize order of the claim. -/
theorem matched_filename_order_counterexample :
    create_match_filename (some "a  b") (1/2) "x.jpg" ≠
      spec_matched_filename "a  b" (1/2) "x.jpg" := by
  decide

/-- C7 amended: for every match string not starting with `UNMATCHED`, the
matched-path filename applies the character sanitizer first and the
whitespace collapse afterwards; since sanitized output has no whitespace
the collapse is the identity, so a run of n whitespace characters
contributes n underscores and the result is
`sanitize_filename match ++ "_conf" ++ conf_pct ++ extension`. -/
theorem matched_filename_formula (m : String) (q : ℚ) (file_name : String)
    (hm : m ≠ "") (hp : ¬ "UNMATCHED".data.isPrefixOf m.data = true) :
    create_match_filename (some m) q file_name =
      sanitize_filename m ++ "_conf" ++ toString (pyInt (q * 100)) ++
        file_extension file_name := by
  simp only [create_match_filename, hm, hp, Bool.false_eq_true, if_true, if_false, ite_true,
    ite_false, file_extension, collapse_ws_sanitize]

/-- Witness for C7 amended at the counterexample's input. -/
theorem matched_filename_formula_witness :
    create_match_filename (some "a  b") (1/2) "x.jpg" =
      sanitize_filename "a  b" ++ "_conf" ++ toString (pyInt ((1/2 : ℚ) * 100)) ++
        file_extension "x.jpg" :=
  matched_filename_formula "a  b" (1/2) "x.jpg" (by decide) (by decide)

/-! ### C9: the explicit-unmatched capture -/

theorem unmatched_after_chars (l cap : List Char) (h : unmatched_after l = some cap) :
    ∀ c ∈ cap, (isWordChar c || isSpaceChar c) = true := by
  simp only [unmatched_after] at h
  split at h
  · obtain rfl : _ = cap := Option.some.inj h
    intro c hc
    have h2 := List.mem_takeWhile_imp hc
    exact h2
  · split at h
    · rename_i c' hf
      obtain rfl : [c'] = cap := Option.some.inj h
      intro c hc
      rw [List.mem_singleton.mp hc]
      have := List.find?_some hf
      simp [this]
    · exact absurd h (by simp)

theorem search_unmatched_chars (l cap : List Char) (h : search_unmatched l = some cap) :
    ∀ c ∈ cap, (isWordChar c || isSpaceChar c) = true := by
  induction l with
  | nil => cases h
  | cons a as ih =>
    rw [search_unmatched] at h
    split at h
    · split at h
      · rename_i cap' hu
        obtain rfl : cap' = cap := Option.some.inj h
        exact unmatched_after_chars _ _ hu
      · exact ih h
    · exact ih h

theorem search_unmatched_none (l : List Char) (h : hasSub "unmatched".data l = false) :
    search_unmatched l = none := by
  induction l with
  | nil => rfl
  | cons a as ih =>
    rw [hasSub] at h
    rw [Bool.or_eq_false_iff] at h
    rw [search_unmatched, if_neg (by simp [h.1])]
    exact ih h.2

/-- C9 counterexample: the capture class of the unmatched regex is
`[\w\s]`, not letters/whitespace — on `"unmatched abc123"` the captured
label `abc123` contains the digit `1`. -/
theorem unmatched_label_digits_counterexample :
    search_unmatched "unmatched abc123".data = some ['a','b','c','1','2','3'] ∧
    '1' ∈ (['a','b','c','1','2','3'] : List Char) ∧
    (Char.isAlpha '1' || isSpaceChar '1') = false := by
  decide

/-- C9 amended: every character of the captured explicit-unmatched label
is a word character (letter, digit or underscore) or whitespace, and the
signal is absent when no `unmatched` marker occurs in the text. -/
theorem unmatched_label_charset (l : List Char) :
    (∀ cap, search_unmatched l = some cap →
      ∀ c ∈ cap, (isWordChar c || isSpaceChar c) = true) ∧
    (hasSub "unmatched".data l = false → search_unmatched l = none) :=
  ⟨fun cap h => search_unmatched_chars l cap h, search_unmatched_none l⟩

/-- Witness for C9 amended on a concrete capture. -/
theorem unmatched_label_charset_witness :
    ∀ c ∈ (['o', 'k'] : List Char), (isWordChar c || isSpaceChar c) = true :=
  (unmatched_label_charset "unmatched ok".data).1 ['o', 'k'] (by decide)

/-- C10: a confidence marker that parses to 0 is treated as absent: the
general path resolves `confidence = min(score + boost, 1)` with
`original_confidence = score`, and the explicit-unmatched path uses the
base `max(0.3, score)`. -/
theorem zero_confidence_treated_absent (descriptions : List String) (description : String)
    (boost : ℚ) (cap : List Char)
    (h1 : search_confidence (pyLower description).data = some cap)
    (h2 : pyFloatParse cap = some 0) :
    (search_unmatched (pyLower description).data = none →
      (find_best_match descriptions description boost).confidence =
        min ((find_best_match descriptions description boost).score + boost) 1 ∧
      (find_best_match descriptions description boost).original_confidence =
        (find_best_match descriptions description boost).score) ∧
    (∀ u, search_unmatched (pyLower description).data = some u →
      (find_best_match descriptions description boost).original_confidence =
        max (3/10) (find_best_match descriptions description boost).score ∧
      (find_best_match descriptions description boost).confidence =
        min (max (3/10) (find_best_match descriptions description boost).score + boost)
          (9/10)) := by
  have hcs : reported_confidence (pyLower description) = 0 := by
    unfold reported_confidence
    simp only [h1, h2]
    norm_num
  constructor
  · intro hu
    simp only [find_best_match, hu, hcs, gt_iff_lt, lt_self_iff_false, if_false, ite_false]
    split
    · exact ⟨by trivial, by trivial⟩
    · exact ⟨by trivial, by trivial⟩
  · intro u hu
    simp only [find_best_match, hu, hcs, gt_iff_lt, lt_self_iff_false, if_false, ite_false]
    exact ⟨by trivial, by trivial⟩

/-- Witness for C10 on `Confidence score: 0/10`. -/
theorem zero_confidence_treated_absent_witness :
    (find_best_match [] "Confidence score: 0/10" 0).confidence =
      min ((find_best_match [] "Confidence score: 0/10" 0).score + 0) 1 ∧
    (find_best_match [] "Confidence score: 0/10" 0).original_confidence =
      (find_best_match [] "Confidence score: 0/10" 0).score :=
  (zero_confidence_treated_absent [] "Confidence score: 0/10" 0 ['0']
    (by decide) (by decide)).1 (by decide)

/-! ### C8: the fusion tag loop -/

theorem add_food_tags_go (tags : List String) :
    ∀ (c : String) (a : List String),
      ∃ dd : List String,
        tags.foldl (fun acc tag =>
            if hasSub (pyLower tag).data (pyLower acc.1).data then acc
            else (acc.1 ++ "\nVision API detected: " ++ tag, acc.2 ++ [tag])) (c, a) =
          (c ++ appended_tag_lines dd, a ++ dd) := by
  induction tags with
  | nil =>
    intro c a
    exact ⟨[], by simp [appended_tag_lines]⟩
  | cons u ts ih =>
    intro c a
    rw [List.foldl_cons]
    by_cases hsub : hasSub (pyLower u).data (pyLower c).data = true
    · rw [if_pos hsub]
      exact ih c a
    · rw [if_neg hsub]
      obtain ⟨dd, hdd⟩ := ih (c ++ "\nVision API detected: " ++ u) (a ++ [u])
      refine ⟨u :: dd, ?_⟩
      rw [hdd]
      simp [appended_tag_lines, String.append_assoc]

theorem add_food_tags_spec (combined : String) (food_tags : List String) :
    add_food_tags combined food_tags =
      (combined ++ appended_tag_lines (add_food_tags combined food_tags).2,
        (add_food_tags combined food_tags).2) := by
  obtain ⟨dd, hdd⟩ := add_food_tags_go food_tags combined []
  unfold add_food_tags
  rw [hdd]
  simp

theorem hasSub_lower_line (u : String) (pre : String) :
    hasSub (pyLower u).data (pyLower (pre ++ "\nVision API detected: " ++ u)).data = true := by
  rw [pyLower_append, pyLower_append]
  simp only [mk_data, String.data_append, List.append_assoc]
  exact hasSub_append_left _ _ _ (hasSub_append_left _ _ _ (hasSub_self _))

theorem add_food_tags_covers (tags : List String) :
    ∀ (c : String) (a : List String) (t : String), t ∈ tags →
      hasSub (pyLower t).data
        (pyLower (tags.foldl (fun acc tag =>
            if hasSub (pyLower tag).data (pyLower acc.1).data then acc
            else (acc.1 ++ "\nVision API detected: " ++ tag, acc.2 ++ [tag])) (c, a)).1).data =
        true := by
  induction tags with
  | nil => intro c a t ht; cases ht
  | cons u ts ih =>
    intro c a t ht
    rw [List.foldl_cons]
    rcases List.mem_cons.mp ht with rfl | hts
    · by_cases hsub : hasSub (pyLower t).data (pyLower c).data = true
      · rw [if_pos hsub]
        obtain ⟨dd, hdd⟩ := add_food_tags_go ts c a
        rw [hdd]
        rw [pyLower_append]
        simp only [mk_data, String.data_append]
        exact hasSub_append_right _ _ _ hsub
      · rw [if_neg hsub]
        obtain ⟨dd, hdd⟩ :=
          add_food_tags_go ts (c ++ "\nVision API detected: " ++ t) (a ++ [t])
        rw [hdd]
        rw [pyLower_append]
        simp only [mk_data, String.data_append]
        exact hasSub_append_right _ _ _ (hasSub_lower_line t c)
    · by_cases hsub : hasSub (pyLower u).data (pyLower c).data = true
      · rw [if_pos hsub]
        exact ih c a t hts
      · rw [if_neg hsub]
        exact ih _ _ t hts

theorem augment_notes (d : String) (v : VisionAnalysis) :
    (augment_with_text d v).2 = [] ∨
      (augment_with_text d v).2 = ["Added Vision API text detection"] := by
  simp only [augment_with_text]
  split
  · split
    · exact Or.inr rfl
    · exact Or.inl rfl
  · split
    · exact Or.inr rfl
    · exact Or.inl rfl

theorem food_note_ne_text_note (X : String) :
    "Added Vision API food tags: " ++ X ≠ "Added Vision API text detection" := by
  intro h
  have h17 : ("Added Vision API food tags: " ++ X).data[17]? =
      "Added Vision API text detection".data[17]? := congrArg (fun s => s.data[17]?) h
  rw [String.data_append,
    List.getElem?_append_left (show 17 < "Added Vision API food tags: ".data.length by decide)]
    at h17
  exact absurd h17 (by decide)

theorem food_tag_names_nil (v : VisionAnalysis)
    (hc : ¬(v.tags ≠ [] ∧ food_tag_names v ≠ [])) : food_tag_names v = [] := by
  by_cases ht : v.tags = []
  · simp [food_tag_names, ht]
  · push_neg at hc
    exact hc ht

theorem combine_eq_pos (d : String) (v : VisionAnalysis)
    (hc : v.tags ≠ [] ∧ food_tag_names v ≠ []) :
    combine_analysis_results d (some v) =
      ((add_food_tags (augment_with_text d v).1 (food_tag_names v)).1,
       if (add_food_tags (augment_with_text d v).1 (food_tag_names v)).2 ≠ [] then
         (augment_with_text d v).2 ++ ["Added Vision API food tags: " ++
           String.intercalate ", "
             (add_food_tags (augment_with_text d v).1 (food_tag_names v)).2]
       else (augment_with_text d v).2, 0) := by
  simp only [combine_analysis_results]
  rw [if_pos hc]

theorem combine_eq_neg (d : String) (v : VisionAnalysis)
    (hc : ¬(v.tags ≠ [] ∧ food_tag_names v ≠ [])) :
    combine_analysis_results d (some v) =
      ((augment_with_text d v).1, (augment_with_text d v).2, 0) := by
  simp only [combine_analysis_results]
  rw [if_neg hc]

/-- C8 counterexample: a qualifying secondary tag appends the line
`Vision API detected: <tag>`, not `Secondary source detected: <tag>` as
the claim words it. -/
theorem fusion_line_wording_counterexample :
    (combine_analysis_results "hello" (some ⟨[], [⟨"food", 4/5⟩]⟩)).1 =
      "hello\nVision API detected: food" ∧
    hasSub "Secondary source detected:".data
      (combine_analysis_results "hello" (some ⟨[], [⟨"food", 4/5⟩]⟩)).1.data = false := by
  decide

/-- C8 amended: during fusion, each tag with confidence above 0.7 whose
name is in the food vocabulary and is not already a case-insensitive
substring of the (possibly already augmented) running text gets the line
`"\nVision API detected: <tag>"` appended — the combined text is exactly
the augmented text followed by the lines of the tags actually added, every
qualifying tag is a case-insensitive substring of the final text, and the
aggregated synergy note is emitted exactly when some tag was added. -/
theorem fusion_food_tags (d : String) (v : VisionAnalysis) :
    (combine_analysis_results d (some v)).1 =
      (augment_with_text d v).1 ++
        appended_tag_lines (add_food_tags (augment_with_text d v).1 (food_tag_names v)).2 ∧
    (∀ t ∈ food_tag_names v,
      hasSub (pyLower t).data (pyLower (combine_analysis_results d (some v)).1).data = true) ∧
    (("Added Vision API food tags: " ++
        String.intercalate ", "
          (add_food_tags (augment_with_text d v).1 (food_tag_names v)).2) ∈
        (combine_analysis_results d (some v)).2.1 ↔
      (add_food_tags (augment_with_text d v).1 (food_tag_names v)).2 ≠ []) := by
  by_cases hc : v.tags ≠ [] ∧ food_tag_names v ≠ []
  · rw [combine_eq_pos d v hc]
    have has := add_food_tags_spec (augment_with_text d v).1 (food_tag_names v)
    refine ⟨?_, ?_, ?_⟩
    · exact congrArg Prod.fst has
    · intro t ht
      exact add_food_tags_covers (food_tag_names v) (augment_with_text d v).1 [] t ht
    · by_cases hdd : (add_food_tags (augment_with_text d v).1 (food_tag_names v)).2 ≠ []
      · rw [if_pos hdd]
        constructor
        · intro _; exact hdd
        · intro _
          exact List.mem_append_right _ (List.mem_singleton_self _)
      · rw [if_neg hdd]
        constructor
        · intro hmem
          exfalso
          rcases augment_notes d v with h | h
          · rw [h] at hmem
            cases hmem
          · rw [h] at hmem
            exact food_note_ne_text_note _ (List.mem_singleton.mp hmem)
        · intro h
          exact absurd h hdd
  · have hft := food_tag_names_nil v hc
    rw [combine_eq_neg d v hc, hft]
    refine ⟨?_, ?_, ?_⟩
    · simp [add_food_tags, appended_tag_lines]
    · intro t ht
      cases ht
    · simp only [add_food_tags, List.foldl_nil]
      constructor
      · intro hmem
        exfalso
        rcases augment_notes d v with h | h
        · rw [h] at hmem
          cases hmem
        · rw [h] at hmem
          exact food_note_ne_text_note _ (List.mem_singleton.mp hmem)
      · intro h
        exact absurd rfl h

/-- Witness for C8 amended: the qualifying tag `food` is a substring of
the fused text. -/
theorem fusion_food_tags_witness :
    hasSub (pyLower "food").data
      (pyLower (combine_analysis_results "I see stuff" (some ⟨[], [⟨"food", 4/5⟩]⟩)).1).data =
      true :=
  (fusion_food_tags "I see stuff" ⟨[], [⟨"food", 4/5⟩]⟩).2.1 "food" (by decide)

end AzImageMatching
